import Mathlib

/-!
Shallow embedding of the batched data-loading layer of the storefront backend
(src/loaders/index.ts) and of its product list query builder
(src/routes/products.ts and the products query field of src/schema/builder.ts).

Rows are modelled as structures carrying the fields the embedded code reads;
the database is a list of rows, and a prisma findMany call with a
"key in set" condition is the corresponding List.filter.  A prisma orderBy
is List.insertionSort with the corresponding relation (any sorted permutation
models an SQL ORDER BY).  A JavaScript Map is
modelled as a function into Option (set overwrites, get returns undefined
as none).
-/

namespace Storefront

/-- Product row: only the fields read by the embedded code. -/
structure Product where
  id : Nat
  name : String
deriving DecidableEq, Repr

/-- Category row (string primary key in the source schema). -/
structure Category where
  id : String
  name : String
deriving DecidableEq, Repr

/-- Product variant row. -/
structure ProductVariant where
  id : Nat
  productId : Nat
  sortOrder : Nat
deriving DecidableEq, Repr

/-- User row. -/
structure User where
  id : Nat
  email : String
deriving DecidableEq, Repr

/-- Address row. -/
structure Address where
  id : Nat
  userId : Nat
  isDefault : Bool
deriving DecidableEq, Repr

/-- Collection row (string primary key in the source schema). -/
structure Collection where
  id : String
  name : String
deriving DecidableEq, Repr

/-- Review row. -/
structure Review where
  id : Nat
  productId : Nat
  isPublished : Bool
  createdAt : Nat
deriving DecidableEq, Repr

/-- ProductCategory join row, with the included category record. -/
structure ProductCategory where
  productId : Nat
  category : Category
deriving DecidableEq, Repr

/-- ProductCollection join row, with the included collection record. -/
structure ProductCollection where
  productId : Nat
  collection : Collection
deriving DecidableEq, Repr

/-- A JavaScript Map modelled as a function into Option. -/
def jsEmptyMap {κ α : Type} : κ → Option α := fun _ => none

/-- Map.set: overwrite the binding for one key. -/
def jsMapSet {κ α : Type} [DecidableEq κ] (m : κ → Option α) (k : κ) (v : α) :
    κ → Option α :=
  fun q => if q = k then some v else m q

/-- The forEach loop of a single-entity loader: insert every row keyed by its
id, later rows overwriting earlier ones, exactly as Map.set does. -/
def buildRowMap {κ α : Type} [DecidableEq κ] (key : α → κ) (rows : List α) :
    κ → Option α :=
  rows.foldl (fun m r => jsMapSet m (key r) r) jsEmptyMap

/-- The forEach loop of a one-to-many loader: push val r onto the list bound
to key r, starting from the empty list when the key is unbound. -/
def groupRowsByKey {κ α β : Type} [DecidableEq κ] (key : α → κ) (val : α → β)
    (rows : List α) : κ → Option (List β) :=
  rows.foldl (fun m r => jsMapSet m (key r) (((m (key r)).getD []) ++ [val r]))
    jsEmptyMap

/-- Batch function of createProductLoader: findMany where id in ids, build an
id keyed map, return ids.map over the map with null for misses. -/
def createProductLoaderBatch (store : List Product) (ids : List Nat) :
    List (Option Product) :=
  let products := store.filter (fun p => ids.contains p.id)
  let productMap := buildRowMap Product.id products
  ids.map (fun id => productMap id)

/-- Batch function of createCategoryLoader. -/
def createCategoryLoaderBatch (store : List Category) (ids : List String) :
    List (Option Category) :=
  let categories := store.filter (fun c => ids.contains c.id)
  let categoryMap := buildRowMap Category.id categories
  ids.map (fun id => categoryMap id)

/-- Batch function of createVariantLoader. -/
def createVariantLoaderBatch (store : List ProductVariant) (ids : List Nat) :
    List (Option ProductVariant) :=
  let variants := store.filter (fun v => ids.contains v.id)
  let variantMap := buildRowMap ProductVariant.id variants
  ids.map (fun id => variantMap id)

/-- Batch function of createUserLoader. -/
def createUserLoaderBatch (store : List User) (ids : List Nat) :
    List (Option User) :=
  let users := store.filter (fun u => ids.contains u.id)
  let userMap := buildRowMap User.id users
  ids.map (fun id => userMap id)

/-- Batch function of createAddressLoader. -/
def createAddressLoaderBatch (store : List Address) (ids : List Nat) :
    List (Option Address) :=
  let addresses := store.filter (fun a => ids.contains a.id)
  let addressMap := buildRowMap Address.id addresses
  ids.map (fun id => addressMap id)

/-- Batch function of createCollectionLoader. -/
def createCollectionLoaderBatch (store : List Collection) (ids : List String) :
    List (Option Collection) :=
  let collections := store.filter (fun c => ids.contains c.id)
  let collectionMap := buildRowMap Collection.id collections
  ids.map (fun id => collectionMap id)

/-- orderBy sortOrder asc of the variants-of-product loader. -/
def variantRel (a b : ProductVariant) : Prop :=
  a.sortOrder ≤ b.sortOrder

instance : DecidableRel variantRel :=
  fun a b => Nat.decLe a.sortOrder b.sortOrder

instance : IsTotal ProductVariant variantRel :=
  ⟨fun a b => Nat.le_total a.sortOrder b.sortOrder⟩

instance : IsTrans ProductVariant variantRel :=
  ⟨fun _ _ _ => Nat.le_trans⟩

/-- orderBy createdAt desc of the reviews-of-product loader. -/
def reviewRel (a b : Review) : Prop :=
  b.createdAt ≤ a.createdAt

instance : DecidableRel reviewRel :=
  fun a b => Nat.decLe b.createdAt a.createdAt

instance : IsTotal Review reviewRel :=
  ⟨fun a b => Nat.le_total b.createdAt a.createdAt⟩

instance : IsTrans Review reviewRel :=
  ⟨fun _ _ _ hab hbc => Nat.le_trans hbc hab⟩

/-- orderBy isDefault desc of the addresses-of-user loader: a may precede b
unless a is not the default while b is (true sorts before false). -/
def addressRel (a b : Address) : Prop :=
  a.isDefault = true ∨ b.isDefault = false

instance : DecidableRel addressRel :=
  fun _ _ => instDecidableOr

instance : IsTotal Address addressRel := by
  refine ⟨fun a b => ?_⟩
  cases ha : a.isDefault <;> cases hb : b.isDefault <;>
    simp [addressRel, ha, hb]

instance : IsTrans Address addressRel := by
  refine ⟨fun a b c hab hbc => ?_⟩
  cases ha : a.isDefault
  · cases hc : c.isDefault
    · exact Or.inr hc
    · cases hb : b.isDefault
      · rcases hbc with hb1 | hc1
        · simp [hb] at hb1
        · simp [hc] at hc1
      · rcases hab with ha1 | hb1
        · simp [ha] at ha1
        · simp [hb] at hb1
  · exact Or.inl ha

/-- Batch function of createProductVariantsLoader: findMany where productId in
productIds ordered by sortOrder asc, group by productId, return
productIds.map with empty list for misses. -/
def createProductVariantsLoaderBatch (store : List ProductVariant)
    (productIds : List Nat) : List (List ProductVariant) :=
  let variants :=
    List.insertionSort variantRel (store.filter (fun v => productIds.contains v.productId))
  let variantsByProduct := groupRowsByKey ProductVariant.productId id variants
  productIds.map (fun pid => (variantsByProduct pid).getD [])

/-- Batch function of createProductReviewsLoader: findMany where productId in
productIds and isPublished, ordered by createdAt desc, group by productId. -/
def createProductReviewsLoaderBatch (store : List Review)
    (productIds : List Nat) : List (List Review) :=
  let reviews :=
    (store.filter (fun r => productIds.contains r.productId && r.isPublished)).insertionSort
      reviewRel
  let reviewsByProduct := groupRowsByKey Review.productId id reviews
  productIds.map (fun pid => (reviewsByProduct pid).getD [])

/-- Batch function of createProductCategoriesLoader: findMany on the join
table where productId in productIds, group the included category rows. -/
def createProductCategoriesLoaderBatch (store : List ProductCategory)
    (productIds : List Nat) : List (List Category) :=
  let productCategories := store.filter (fun pc => productIds.contains pc.productId)
  let categoriesByProduct :=
    groupRowsByKey ProductCategory.productId ProductCategory.category
      productCategories
  productIds.map (fun pid => (categoriesByProduct pid).getD [])

/-- Batch function of createProductCollectionsLoader. -/
def createProductCollectionsLoaderBatch (store : List ProductCollection)
    (productIds : List Nat) : List (List Collection) :=
  let productCollections :=
    store.filter (fun pc => productIds.contains pc.productId)
  let collectionsByProduct :=
    groupRowsByKey ProductCollection.productId ProductCollection.collection
      productCollections
  productIds.map (fun pid => (collectionsByProduct pid).getD [])

/-- Batch function of createUserAddressesLoader: findMany where userId in
userIds ordered by isDefault desc, group by userId. -/
def createUserAddressesLoaderBatch (store : List Address)
    (userIds : List Nat) : List (List Address) :=
  let addresses :=
    (store.filter (fun a => userIds.contains a.userId)).insertionSort addressRel
  let addressesByUser := groupRowsByKey Address.userId id addresses
  userIds.map (fun uid => (addressesByUser uid).getD [])

/-- Product status enum of the zod schema and the GraphQL ProductStatusEnum. -/
inductive ProductStatus where
  | DRAFT
  | PUBLISHED
  | ARCHIVED
deriving DecidableEq, Repr

/-- Sort keys accepted by the REST product list endpoint. -/
inductive SortKey where
  | newest
  | oldest
  | priceAsc
  | priceDesc
  | nameAsc
  | nameDesc
deriving DecidableEq, Repr

/-- Fields an order specification can refer to. -/
inductive OrderField where
  | createdAt
  | basePrice
  | name
deriving DecidableEq, Repr

/-- Sort direction. -/
inductive SortDir where
  | asc
  | desc
deriving DecidableEq, Repr

/-- Ordering specification: one field and one direction, as the single-field
orderBy objects the source builds. -/
structure OrderSpec where
  field : OrderField
  dir : SortDir
deriving DecidableEq, Repr

/-- Filter specification a product list query builds: each field is none when
the where object carries no corresponding condition. -/
structure ProductWhere where
  status : Option ProductStatus
  isFeatured : Option Bool
  categorySlug : Option String
  collectionSlug : Option String
  titleContains : Option String
deriving DecidableEq, Repr

/-- Raw query parameters of GET /api/products, before zod parsing: status and
sortBy already validated against their enums, featured still the raw string. -/
structure RestProductQuery where
  status : Option ProductStatus
  featured : Option String
  category : Option String
  collection : Option String
  sortBy : Option SortKey
deriving DecidableEq, Repr

/-- zod transform of the featured parameter: val === "true", applied also when
the parameter is absent (undefined === "true" is false), so the parsed field is
a plain boolean, never undefined. -/
def zodFeaturedTransform (val : Option String) : Bool :=
  match val with
  | some s => s = "true"
  | none => false

/-- Output of productQuerySchema.parse for the filter and sort fields. -/
structure ParsedProductQuery where
  status : Option ProductStatus
  featured : Bool
  category : Option String
  collection : Option String
  sortBy : Option SortKey
deriving DecidableEq, Repr

/-- productQuerySchema.parse restricted to the filter and sort fields. -/
def parseProductQuery (q : RestProductQuery) : ParsedProductQuery :=
  { status := q.status
    featured := zodFeaturedTransform q.featured
    category := q.category
    collection := q.collection
    sortBy := q.sortBy }

/-- JavaScript truthiness of an optional string: undefined and the empty
string are falsy. -/
def jsTruthyString (v : Option String) : Option String :=
  match v with
  | some s => if s = "" then none else some s
  | none => none

/-- Where clause built by GET /api/products. The featured guard in the source
compares against undefined, but the parsed featured field is a boolean and
never undefined, so the isFeatured condition is always present. -/
def restProductWhere (q : ParsedProductQuery) : ProductWhere :=
  { status := q.status
    isFeatured := some q.featured
    categorySlug := jsTruthyString q.category
    collectionSlug := jsTruthyString q.collection
    titleContains := none }

/-- orderBy clause built by GET /api/products: initialized to createdAt desc,
reassigned by the switch when sortBy is present (the switch covers every
accepted sort key). -/
def restProductOrderBy (sortBy : Option SortKey) : OrderSpec :=
  match sortBy with
  | none => ⟨OrderField.createdAt, SortDir.desc⟩
  | some SortKey.newest => ⟨OrderField.createdAt, SortDir.desc⟩
  | some SortKey.oldest => ⟨OrderField.createdAt, SortDir.asc⟩
  | some SortKey.priceAsc => ⟨OrderField.basePrice, SortDir.asc⟩
  | some SortKey.priceDesc => ⟨OrderField.basePrice, SortDir.desc⟩
  | some SortKey.nameAsc => ⟨OrderField.name, SortDir.asc⟩
  | some SortKey.nameDesc => ⟨OrderField.name, SortDir.desc⟩

/-- Arguments of the GraphQL products query field; none models an argument the
client did not supply. -/
structure GqlProductsArgs where
  status : Option ProductStatus
  categorySlug : Option String
  collectionSlug : Option String
  featured : Option Bool
  search : Option String
deriving DecidableEq, Repr

/-- Where clause built by the products query field resolver: absent status
defaults to PUBLISHED, featured is copied only when supplied, slug and search
filters only when truthy. -/
def graphqlProductWhere (args : GqlProductsArgs) : ProductWhere :=
  { status :=
      some (match args.status with
            | some s => s
            | none => ProductStatus.PUBLISHED)
    isFeatured := args.featured
    categorySlug := jsTruthyString args.categorySlug
    collectionSlug := jsTruthyString args.collectionSlug
    titleContains := jsTruthyString args.search }

/-- orderBy of the products query field resolver: always createdAt desc. -/
def graphqlProductOrderBy : OrderSpec :=
  ⟨OrderField.createdAt, SortDir.desc⟩

/-- Filter and sort specification pair the REST endpoint builds from one raw
query. -/
def restBuild (q : RestProductQuery) : ProductWhere × OrderSpec :=
  (restProductWhere (parseProductQuery q), restProductOrderBy (parseProductQuery q).sortBy)

/-- Filter and sort specification pair the GraphQL field builds from its
arguments. -/
def graphqlBuild (args : GqlProductsArgs) : ProductWhere × OrderSpec :=
  (graphqlProductWhere args, graphqlProductOrderBy)

/-- Modelled from the spec: the distinct pending key queue of the generic
batch-loader primitive (the external dataloader dependency, not under src).
Keys are kept in first-request order, each retained once. -/
def dedupKeys {κ : Type} [DecidableEq κ] : List κ → List κ
  | [] => []
  | k :: rest => k :: dedupKeys (rest.filter (fun x => decide (x ≠ k)))
termination_by l => l.length
decreasing_by
  simp only [List.length_cons]
  exact Nat.lt_succ_of_le (List.length_filter_le _ _)

/-- Modelled from the spec: one flush cycle of the generic batch-loader
primitive (the external dataloader dependency, not under src).  With no
pending keys nothing is dispatched; otherwise the batch function is invoked
once with the distinct key queue, the positional results are zipped against
the dispatched keys into the cache, and every caller is resolved from the
cache.  The second component records the argument of each batch invocation. -/
def loadDispatch {κ α : Type} [DecidableEq κ] (batch : List κ → List α)
    (keys : List κ) : List (Option α) × List (List κ) :=
  match keys with
  | [] => ([], [])
  | _ =>
    let distinct := dedupKeys keys
    let cache := distinct.zip (batch distinct)
    (keys.map (fun k => List.lookup k cache), [distinct])

/-- List.contains agrees with decidable membership for lawful key equality. -/
theorem contains_eq_decide_mem {α : Type} [BEq α] [LawfulBEq α]
    (l : List α) (a : α) : l.contains a = decide (a ∈ l) := by
  simp [List.contains]

/-- Folding Map.set over rows makes the last row with a given key win, which
is finding the key in the reversed row list. -/
theorem foldl_jsMapSet_get {κ α : Type} [DecidableEq κ] (key : α → κ) (q : κ) :
    ∀ (rows : List α) (m : κ → Option α),
      (rows.foldl (fun m r => jsMapSet m (key r) r) m) q =
        (rows.reverse.find? (fun r => decide (key r = q))).or (m q)
  | [], m => by simp
  | r :: rest, m => by
    simp only [List.foldl_cons, List.reverse_cons, List.find?_append]
    rw [foldl_jsMapSet_get key q rest _, Option.or_assoc]
    congr 1
    by_cases h : key r = q
    · simp [jsMapSet, h, List.find?]
    · have hq : ¬(q = key r) := fun hq => h hq.symm
      simp [jsMapSet, h, hq, List.find?]

/-- When row keys are distinct, finding in the reversed list equals finding in
the list itself. -/
theorem find?_reverse_of_nodup {κ α : Type} [DecidableEq κ] (key : α → κ)
    (q : κ) :
    ∀ (rows : List α), (rows.map key).Nodup →
      rows.reverse.find? (fun r => decide (key r = q)) =
        rows.find? (fun r => decide (key r = q))
  | [], _ => by simp
  | r :: rest, h => by
    simp only [List.map_cons, List.nodup_cons, List.mem_map] at h
    obtain ⟨hnot, hnd⟩ := h
    simp only [List.reverse_cons, List.find?_append]
    by_cases hp : key r = q
    · have hnone : rest.reverse.find? (fun x => decide (key x = q)) = none := by
        rw [List.find?_eq_none]
        intro x hx
        simp only [decide_eq_true_eq]
        intro he
        exact hnot ⟨x, List.mem_reverse.mp hx, he.trans hp.symm⟩
      rw [hnone]
      simp [List.find?, hp]
    · have hsing : List.find? (fun x => decide (key x = q)) [r] = none := by
        simp [List.find?, hp]
      rw [hsing, Option.or_none, find?_reverse_of_nodup key q rest hnd]
      simp [List.find?_cons, hp]

/-- The id keyed map of a single-entity loader resolves a key to the unique
stored row carrying it, provided row keys are distinct. -/
theorem buildRowMap_get_of_nodup {κ α : Type} [DecidableEq κ] (key : α → κ)
    (rows : List α) (q : κ) (h : (rows.map key).Nodup) :
    buildRowMap key rows q = rows.find? (fun r => decide (key r = q)) := by
  unfold buildRowMap
  rw [foldl_jsMapSet_get, find?_reverse_of_nodup key q rows h]
  simp [jsEmptyMap]

/-- Folding the grouping step over rows appends, per key, exactly the values
of the rows carrying that key, in row order. -/
theorem groupFold_getD {κ α β : Type} [DecidableEq κ] (key : α → κ)
    (val : α → β) (q : κ) :
    ∀ (rows : List α) (m : κ → Option (List β)),
      ((rows.foldl
          (fun m r => jsMapSet m (key r) (((m (key r)).getD []) ++ [val r]))
          m) q).getD [] =
        ((m q).getD []) ++ (rows.filter (fun r => decide (key r = q))).map val
  | [], m => by simp
  | r :: rest, m => by
    simp only [List.foldl_cons, List.filter_cons]
    rw [groupFold_getD key val q rest _]
    by_cases h : key r = q
    · simp [jsMapSet, h, List.append_assoc]
    · have hq : ¬(q = key r) := fun hq => h hq.symm
      simp [jsMapSet, h, hq]

/-- Reading one key of a one-to-many grouping gives the filtered row values in
row order. -/
theorem groupRowsByKey_getD {κ α β : Type} [DecidableEq κ] (key : α → κ)
    (val : α → β) (rows : List α) (q : κ) :
    ((groupRowsByKey key val rows) q).getD [] =
      (rows.filter (fun r => decide (key r = q))).map val := by
  unfold groupRowsByKey
  rw [groupFold_getD]
  simp [jsEmptyMap]

/-- Searching a row by key inside the rows prefetched for a key set equals
searching the whole store, whenever the key belongs to the set. -/
theorem find?_filter_contains (store : List Product) (ids : List Nat) (k : Nat)
    (hk : k ∈ ids) :
    (store.filter (fun p => ids.contains p.id)).find?
        (fun p => decide (p.id = k)) =
      store.find? (fun p => decide (p.id = k)) := by
  rw [List.find?_filter]
  congr 1
  funext p
  by_cases h : p.id = k
  · simp [h, contains_eq_decide_mem, hk]
  · simp [h]

/-- Example store for the loader witnesses: products A (id 1) and C (id 3),
no product with id 2. -/
def exampleProductStore : List Product :=
  [⟨1, "a"⟩, ⟨3, "c"⟩]

/-- C1: the batch fetch of the product loader returns, at every position, the
stored row whose id equals the key at that position (none when no such row
exists), so equal keys receive equal rows; the store hypothesis is primary-key
uniqueness of product ids. -/
theorem productLoaderBatch_positional (store : List Product) (ids : List Nat)
    (h : (store.map Product.id).Nodup) :
    createProductLoaderBatch store ids =
      ids.map (fun k => store.find? (fun p => decide (p.id = k))) := by
  unfold createProductLoaderBatch
  apply List.map_congr_left
  intro k hk
  rw [buildRowMap_get_of_nodup Product.id _ k
    (List.Nodup.sublist ((List.filter_sublist store).map Product.id) h)]
  exact find?_filter_contains store ids k hk

/-- C1 witness: on keys [1, 2, 1, 3] over a store holding ids 1 and 3, the
positional description applies and evaluates to [row 1, none, row 1, row 3]. -/
theorem productLoaderBatch_positional_witness :
    (exampleProductStore.map Product.id).Nodup ∧
      createProductLoaderBatch exampleProductStore [1, 2, 1, 3] =
        [some ⟨1, "a"⟩, none, some ⟨1, "a"⟩, some ⟨3, "c"⟩] := by
  refine ⟨by decide, ?_⟩
  rw [productLoaderBatch_positional exampleProductStore [1, 2, 1, 3] (by decide)]
  decide

/-- Pointwise related images of one key list are Forall₂ related. -/
theorem forall₂_map_of_forall {κ β γ : Type} (R : β → γ → Prop) (f : κ → β)
    (g : κ → γ) :
    ∀ (l : List κ), (∀ a ∈ l, R (f a) (g a)) →
      List.Forall₂ R (l.map f) (l.map g)
  | [], _ => List.Forall₂.nil
  | a :: l, h => by
    simp only [List.map_cons, List.forall₂_cons]
    exact ⟨h a (List.mem_cons_self a l),
      forall₂_map_of_forall R f g l (fun x hx => h x (List.mem_cons_of_mem a hx))⟩

/-- Filtering prefetched rows down to one key of the set equals filtering the
whole store by that key. -/
theorem filter_filter_contains {α : Type} (key : α → Nat) (store : List α)
    (ids : List Nat) (k : Nat) (hk : k ∈ ids) (extra : α → Bool)
    (hextra : ∀ a, extra a = true) :
    (store.filter (fun a => ids.contains (key a) && extra a)).filter
        (fun a => decide (key a = k)) =
      store.filter (fun a => decide (key a = k)) := by
  rw [List.filter_filter]
  refine List.filter_congr ?_
  intro a _
  by_cases h : key a = k
  · simp [h, contains_eq_decide_mem, hk, hextra]
  · simp [h]

/-- Example variant store: two variants of product 1 (sort orders 2 and 1),
none for product 2. -/
def exampleVariantStore : List ProductVariant :=
  [⟨1, 1, 2⟩, ⟨2, 1, 1⟩]

/-- C2: each slot of a one-to-many batch fetch holds exactly the child rows
whose parent key equals the input key at that slot (as a permutation, the
ordering of the relation being fixed separately), an empty list when the parent
has no children; concretely, parents [1, 2] over a store with two children of
1 and none of 2 resolve to a 2-element list and an empty list. -/
theorem variantsLoaderBatch_grouping :
    (∀ (store : List ProductVariant) (ids : List Nat),
        List.Forall₂ List.Perm (createProductVariantsLoaderBatch store ids)
          (ids.map (fun k => store.filter (fun v => decide (v.productId = k))))) ∧
      createProductVariantsLoaderBatch exampleVariantStore [1, 2] =
        [[⟨2, 1, 1⟩, ⟨1, 1, 2⟩], []] := by
  refine ⟨fun store ids => ?_, by decide⟩
  simp only [createProductVariantsLoaderBatch]
  apply forall₂_map_of_forall
  intro k hk
  rw [groupRowsByKey_getD, List.map_id]
  refine ((List.perm_insertionSort variantRel _).filter _).trans ?_
  have hsame :
      store.filter (fun v => ids.contains v.productId) =
        store.filter (fun v => ids.contains v.productId && true) := by
    simp
  rw [hsame,
    filter_filter_contains ProductVariant.productId store ids k hk _
      (fun _ => rfl)]

/-- Every slot of the reviews batch is a filtered view of the sorted published
fetch result. -/
theorem reviews_slot_eq_filter (store : List Review) (ids : List Nat)
    (l : List Review) (hl : l ∈ createProductReviewsLoaderBatch store ids) :
    ∃ k,
      l = (List.insertionSort reviewRel
            (store.filter
              (fun r => ids.contains r.productId && r.isPublished))).filter
          (fun r => decide (r.productId = k)) := by
  simp only [createProductReviewsLoaderBatch, List.mem_map] at hl
  obtain ⟨k, _, hfk⟩ := hl
  refine ⟨k, ?_⟩
  rw [← hfk, groupRowsByKey_getD, List.map_id]

/-- Every slot of the addresses batch is a filtered view of the sorted fetch
result. -/
theorem addresses_slot_eq_filter (store : List Address) (ids : List Nat)
    (l : List Address) (hl : l ∈ createUserAddressesLoaderBatch store ids) :
    ∃ k,
      l = (List.insertionSort addressRel
            (store.filter (fun a => ids.contains a.userId))).filter
          (fun a => decide (a.userId = k)) := by
  simp only [createUserAddressesLoaderBatch, List.mem_map] at hl
  obtain ⟨k, _, hfk⟩ := hl
  refine ⟨k, ?_⟩
  rw [← hfk, groupRowsByKey_getD, List.map_id]

/-- C3: the reviews-of-product batch only ever returns published reviews, each
of its slots is ordered by created timestamp descending, and each slot of the
addresses-of-user batch is ordered default address first. -/
theorem reviews_published_desc_addresses_default_first :
    (∀ (store : List Review) (ids : List Nat) (l : List Review) (r : Review),
        l ∈ createProductReviewsLoaderBatch store ids → r ∈ l →
          r.isPublished = true) ∧
      (∀ (store : List Review) (ids : List Nat) (l : List Review),
          l ∈ createProductReviewsLoaderBatch store ids →
            l.Pairwise (fun a b => b.createdAt ≤ a.createdAt)) ∧
      (∀ (store : List Address) (ids : List Nat) (l : List Address),
          l ∈ createUserAddressesLoaderBatch store ids →
            l.Pairwise (fun a b => a.isDefault = true ∨ b.isDefault = false)) := by
  refine ⟨?_, ?_, ?_⟩
  · intro store ids l r hl hr
    obtain ⟨k, rfl⟩ := reviews_slot_eq_filter store ids l hl
    have hr1 := (List.mem_filter.mp hr).1
    have hr2 :=
      (List.perm_insertionSort reviewRel _).mem_iff.mp hr1
    have := (List.mem_filter.mp hr2).2
    exact (Bool.and_eq_true _ _).mp this |>.2
  · intro store ids l hl
    obtain ⟨k, rfl⟩ := reviews_slot_eq_filter store ids l hl
    exact List.Pairwise.sublist (List.filter_sublist _)
      (List.sorted_insertionSort reviewRel _)
  · intro store ids l hl
    obtain ⟨k, rfl⟩ := addresses_slot_eq_filter store ids l hl
    exact List.Pairwise.sublist (List.filter_sublist _)
      (List.sorted_insertionSort addressRel _)

/-- Example review store: product 1 has published reviews created at 10 and 20
and an unpublished review created at 30. -/
def exampleReviewStore : List Review :=
  [⟨1, 1, true, 10⟩, ⟨2, 1, true, 20⟩, ⟨3, 1, false, 30⟩]

/-- Example address store: user 1 has a non-default address and a default
one. -/
def exampleAddressStore : List Address :=
  [⟨1, 1, false⟩, ⟨2, 1, true⟩]

/-- C3 witness: the policy theorem applied to concrete stores, with the
membership hypotheses discharged by evaluation. -/
theorem reviews_published_desc_addresses_default_first_witness :
    (⟨2, 1, true, 20⟩ : Review).isPublished = true ∧
      List.Pairwise (fun a b : Review => b.createdAt ≤ a.createdAt)
        [⟨2, 1, true, 20⟩, ⟨1, 1, true, 10⟩] ∧
      List.Pairwise (fun a b : Address => a.isDefault = true ∨ b.isDefault = false)
        [⟨2, 1, true⟩, ⟨1, 1, false⟩] :=
  ⟨reviews_published_desc_addresses_default_first.1 exampleReviewStore [1]
      [⟨2, 1, true, 20⟩, ⟨1, 1, true, 10⟩] ⟨2, 1, true, 20⟩ (by decide)
      (by decide),
    reviews_published_desc_addresses_default_first.2.1 exampleReviewStore [1]
      [⟨2, 1, true, 20⟩, ⟨1, 1, true, 10⟩] (by decide),
    reviews_published_desc_addresses_default_first.2.2 exampleAddressStore [1]
      [⟨2, 1, true⟩, ⟨1, 1, false⟩] (by decide)⟩

/-- C10: every slot the variants-of-product batch returns is ordered by the
variants sortOrder field ascending. -/
theorem variantsLoaderBatch_sortOrder_asc (store : List ProductVariant)
    (ids : List Nat) (l : List ProductVariant)
    (hl : l ∈ createProductVariantsLoaderBatch store ids) :
    l.Pairwise (fun a b => a.sortOrder ≤ b.sortOrder) := by
  simp only [createProductVariantsLoaderBatch, List.mem_map] at hl
  obtain ⟨k, _, hfk⟩ := hl
  rw [← hfk, groupRowsByKey_getD, List.map_id]
  exact List.Pairwise.sublist (List.filter_sublist _)
    (List.sorted_insertionSort variantRel _)

/-- C10 witness: the sortedness theorem applied to the concrete variant store
and parent keys [1, 2]. -/
theorem variantsLoaderBatch_sortOrder_asc_witness :
    List.Pairwise (fun a b : ProductVariant => a.sortOrder ≤ b.sortOrder)
      [⟨2, 1, 1⟩, ⟨1, 1, 2⟩] :=
  variantsLoaderBatch_sortOrder_asc exampleVariantStore [1, 2]
    [⟨2, 1, 1⟩, ⟨1, 1, 2⟩] (by decide)

/-- The id keyed map of a single-entity loader resolves a key to the last
stored row carrying it (Map.set overwrites), with no assumption on the
store. -/
theorem buildRowMap_eq_reverse_find {κ α : Type} [DecidableEq κ]
    (key : α → κ) (rows : List α) (q : κ) :
    buildRowMap key rows q = rows.reverse.find? (fun r => decide (key r = q)) := by
  unfold buildRowMap
  rw [foldl_jsMapSet_get]
  simp [jsEmptyMap]

/-- Searching a row by key inside the rows kept by a key-in-set condition
equals searching the unrestricted list, whenever the key belongs to the
set. -/
theorem find?_filter_contains_gen {κ α : Type} [DecidableEq κ] [BEq κ]
    [LawfulBEq κ] (key : α → κ) (l : List α) (ids : List κ) (k : κ)
    (hk : k ∈ ids) :
    (l.filter (fun a => ids.contains (key a))).find?
        (fun a => decide (key a = k)) =
      l.find? (fun a => decide (key a = k)) := by
  rw [List.find?_filter]
  congr 1
  funext a
  by_cases h : key a = k
  · simp [h, contains_eq_decide_mem, hk]
  · simp [h]

/-- The body shared by every single-entity batch function is positionally the
input keys mapped to the last stored row carrying each key. -/
theorem singleLoaderBatch_positional_gen {κ α : Type} [DecidableEq κ] [BEq κ]
    [LawfulBEq κ] (key : α → κ) (store : List α) (ids : List κ) :
    ids.map
        (fun k =>
          buildRowMap key (store.filter (fun a => ids.contains (key a))) k) =
      ids.map (fun k => store.reverse.find? (fun a => decide (key a = k))) := by
  apply List.map_congr_left
  intro k hk
  rw [buildRowMap_eq_reverse_find, ← List.filter_reverse]
  exact find?_filter_contains_gen key store.reverse ids k hk

/-- Filtering the rows kept by a key-in-set condition and an extra predicate
down to one key of the set equals filtering the whole store by that key and
the extra predicate. -/
theorem filter_filter_contains_extra {α : Type} (key : α → Nat)
    (store : List α) (ids : List Nat) (k : Nat) (hk : k ∈ ids)
    (extra : α → Bool) :
    (store.filter (fun a => ids.contains (key a) && extra a)).filter
        (fun a => decide (key a = k)) =
      store.filter (fun a => decide (key a = k) && extra a) := by
  rw [List.filter_filter]
  refine List.filter_congr ?_
  intro a _
  by_cases h : key a = k
  · simp [h, contains_eq_decide_mem, hk]
  · simp [h]

/-- Filtering the rows kept by a key-in-set condition down to one key of the
set equals filtering the whole store by that key. -/
theorem filter_contains_filter_eq {α : Type} (key : α → Nat)
    (store : List α) (ids : List Nat) (k : Nat) (hk : k ∈ ids) :
    (store.filter (fun a => ids.contains (key a))).filter
        (fun a => decide (key a = k)) =
      store.filter (fun a => decide (key a = k)) := by
  rw [List.filter_filter]
  refine List.filter_congr ?_
  intro a _
  by_cases h : key a = k
  · simp [h, contains_eq_decide_mem, hk]
  · simp [h]

/-- C7: every batch fetch function, single-entity and one-to-many alike,
returns one result slot per input key, with the result order matching the
input key order: each single-entity batch equals its input keys mapped, in
order, to the stored row carrying that key (the most recently stored one in
the degenerate case of colliding ids, none when absent), each one-to-many
batch is positionally, key by key in input order, a permutation of the child
rows of that key (with the relation-specific extra predicate and value
projection), and every result length equals the input length, so the
length-mismatch ContractViolation condition is unreachable. -/
theorem batch_positional_and_length :
    (∀ (store : List Product) (ids : List Nat),
        createProductLoaderBatch store ids =
          ids.map (fun k => store.reverse.find? (fun p => decide (p.id = k)))) ∧
      (∀ (store : List Category) (ids : List String),
          createCategoryLoaderBatch store ids =
            ids.map (fun k => store.reverse.find? (fun c => decide (c.id = k)))) ∧
      (∀ (store : List ProductVariant) (ids : List Nat),
          createVariantLoaderBatch store ids =
            ids.map (fun k => store.reverse.find? (fun v => decide (v.id = k)))) ∧
      (∀ (store : List User) (ids : List Nat),
          createUserLoaderBatch store ids =
            ids.map (fun k => store.reverse.find? (fun u => decide (u.id = k)))) ∧
      (∀ (store : List Address) (ids : List Nat),
          createAddressLoaderBatch store ids =
            ids.map (fun k => store.reverse.find? (fun a => decide (a.id = k)))) ∧
      (∀ (store : List Collection) (ids : List String),
          createCollectionLoaderBatch store ids =
            ids.map (fun k => store.reverse.find? (fun c => decide (c.id = k)))) ∧
      (∀ (store : List ProductVariant) (ids : List Nat),
          List.Forall₂ List.Perm (createProductVariantsLoaderBatch store ids)
            (ids.map (fun k => store.filter (fun v => decide (v.productId = k))))) ∧
      (∀ (store : List Review) (ids : List Nat),
          List.Forall₂ List.Perm (createProductReviewsLoaderBatch store ids)
            (ids.map (fun k =>
              store.filter (fun r => decide (r.productId = k) && r.isPublished)))) ∧
      (∀ (store : List ProductCategory) (ids : List Nat),
          List.Forall₂ List.Perm (createProductCategoriesLoaderBatch store ids)
            (ids.map (fun k =>
              (store.filter (fun pc => decide (pc.productId = k))).map
                ProductCategory.category))) ∧
      (∀ (store : List ProductCollection) (ids : List Nat),
          List.Forall₂ List.Perm (createProductCollectionsLoaderBatch store ids)
            (ids.map (fun k =>
              (store.filter (fun pc => decide (pc.productId = k))).map
                ProductCollection.collection))) ∧
      (∀ (store : List Address) (ids : List Nat),
          List.Forall₂ List.Perm (createUserAddressesLoaderBatch store ids)
            (ids.map (fun k => store.filter (fun a => decide (a.userId = k))))) ∧
      (∀ (store : List Product) (ids : List Nat),
          (createProductLoaderBatch store ids).length = ids.length) ∧
      (∀ (store : List Category) (ids : List String),
          (createCategoryLoaderBatch store ids).length = ids.length) ∧
      (∀ (store : List ProductVariant) (ids : List Nat),
          (createVariantLoaderBatch store ids).length = ids.length) ∧
      (∀ (store : List User) (ids : List Nat),
          (createUserLoaderBatch store ids).length = ids.length) ∧
      (∀ (store : List Address) (ids : List Nat),
          (createAddressLoaderBatch store ids).length = ids.length) ∧
      (∀ (store : List Collection) (ids : List String),
          (createCollectionLoaderBatch store ids).length = ids.length) ∧
      (∀ (store : List ProductVariant) (ids : List Nat),
          (createProductVariantsLoaderBatch store ids).length = ids.length) ∧
      (∀ (store : List Review) (ids : List Nat),
          (createProductReviewsLoaderBatch store ids).length = ids.length) ∧
      (∀ (store : List ProductCategory) (ids : List Nat),
          (createProductCategoriesLoaderBatch store ids).length = ids.length) ∧
      (∀ (store : List ProductCollection) (ids : List Nat),
          (createProductCollectionsLoaderBatch store ids).length = ids.length) ∧
      (∀ (store : List Address) (ids : List Nat),
          (createUserAddressesLoaderBatch store ids).length = ids.length) := by
  refine ⟨?_, ?_, ?_, ?_, ?_, ?_, ?_, ?_, ?_, ?_, ?_, ?_, ?_, ?_, ?_, ?_, ?_,
    ?_, ?_, ?_, ?_, ?_⟩
  · intro s i
    simp only [createProductLoaderBatch]
    exact singleLoaderBatch_positional_gen Product.id s i
  · intro s i
    simp only [createCategoryLoaderBatch]
    exact singleLoaderBatch_positional_gen Category.id s i
  · intro s i
    simp only [createVariantLoaderBatch]
    exact singleLoaderBatch_positional_gen ProductVariant.id s i
  · intro s i
    simp only [createUserLoaderBatch]
    exact singleLoaderBatch_positional_gen User.id s i
  · intro s i
    simp only [createAddressLoaderBatch]
    exact singleLoaderBatch_positional_gen Address.id s i
  · intro s i
    simp only [createCollectionLoaderBatch]
    exact singleLoaderBatch_positional_gen Collection.id s i
  · intro s i
    simp only [createProductVariantsLoaderBatch]
    apply forall₂_map_of_forall
    intro k hk
    rw [groupRowsByKey_getD, List.map_id]
    refine ((List.perm_insertionSort variantRel _).filter _).trans ?_
    rw [filter_contains_filter_eq ProductVariant.productId s i k hk]
  · intro s i
    simp only [createProductReviewsLoaderBatch]
    apply forall₂_map_of_forall
    intro k hk
    rw [groupRowsByKey_getD, List.map_id]
    refine ((List.perm_insertionSort reviewRel _).filter _).trans ?_
    rw [filter_filter_contains_extra Review.productId s i k hk
      Review.isPublished]
  · intro s i
    simp only [createProductCategoriesLoaderBatch]
    apply forall₂_map_of_forall
    intro k hk
    rw [groupRowsByKey_getD,
      filter_contains_filter_eq ProductCategory.productId s i k hk]
  · intro s i
    simp only [createProductCollectionsLoaderBatch]
    apply forall₂_map_of_forall
    intro k hk
    rw [groupRowsByKey_getD,
      filter_contains_filter_eq ProductCollection.productId s i k hk]
  · intro s i
    simp only [createUserAddressesLoaderBatch]
    apply forall₂_map_of_forall
    intro k hk
    rw [groupRowsByKey_getD, List.map_id]
    refine ((List.perm_insertionSort addressRel _).filter _).trans ?_
    rw [filter_contains_filter_eq Address.userId s i k hk]
  · intro s i
    simp [createProductLoaderBatch]
  · intro s i
    simp [createCategoryLoaderBatch]
  · intro s i
    simp [createVariantLoaderBatch]
  · intro s i
    simp [createUserLoaderBatch]
  · intro s i
    simp [createAddressLoaderBatch]
  · intro s i
    simp [createCollectionLoaderBatch]
  · intro s i
    simp [createProductVariantsLoaderBatch]
  · intro s i
    simp [createProductReviewsLoaderBatch]
  · intro s i
    simp [createProductCategoriesLoaderBatch]
  · intro s i
    simp [createProductCollectionsLoaderBatch]
  · intro s i
    simp [createUserAddressesLoaderBatch]

/-- C5: the REST sort key mapping is exactly the fixed enumeration, createdAt
descending when no sort key is given, and the mapping of the given key with no
default fallback otherwise. -/
theorem restOrderBy_mapping :
    restProductOrderBy none = ⟨OrderField.createdAt, SortDir.desc⟩ ∧
      restProductOrderBy (some SortKey.newest) =
        ⟨OrderField.createdAt, SortDir.desc⟩ ∧
      restProductOrderBy (some SortKey.oldest) =
        ⟨OrderField.createdAt, SortDir.asc⟩ ∧
      restProductOrderBy (some SortKey.priceAsc) =
        ⟨OrderField.basePrice, SortDir.asc⟩ ∧
      restProductOrderBy (some SortKey.priceDesc) =
        ⟨OrderField.basePrice, SortDir.desc⟩ ∧
      restProductOrderBy (some SortKey.nameAsc) =
        ⟨OrderField.name, SortDir.asc⟩ ∧
      restProductOrderBy (some SortKey.nameDesc) =
        ⟨OrderField.name, SortDir.desc⟩ := by
  decide

/-- C8: the query builders are deterministic; the filter and order
specifications they produce depend only on the given parameters. -/
theorem build_deterministic (q₁ q₂ : RestProductQuery)
    (a₁ a₂ : GqlProductsArgs) (hq : q₁ = q₂) (ha : a₁ = a₂) :
    restBuild q₁ = restBuild q₂ ∧ graphqlBuild a₁ = graphqlBuild a₂ := by
  subst hq
  subst ha
  exact ⟨rfl, rfl⟩

/-- C8 witness: determinism applied at one concrete query and one concrete
argument record. -/
theorem build_deterministic_witness :
    restBuild ⟨none, none, none, none, some SortKey.priceDesc⟩ =
        restBuild ⟨none, none, none, none, some SortKey.priceDesc⟩ ∧
      graphqlBuild ⟨none, none, none, some true, none⟩ =
        graphqlBuild ⟨none, none, none, some true, none⟩ :=
  build_deterministic _ _ _ _ rfl rfl

/-- C4 as stated is false: the REST list endpoint builds no status restriction
at all when the status parameter is absent, so the where specification is not
restricted to PUBLISHED there. -/
theorem rest_status_default_counterexample :
    (restProductWhere (parseProductQuery ⟨none, none, none, none, none⟩)).status
      ≠ some ProductStatus.PUBLISHED := by
  decide

/-- C4 amended: the GraphQL products field defaults an absent status to
PUBLISHED and uses the exact value when present, while the REST list endpoint
copies the status parameter verbatim, including its absence (no default). -/
theorem status_filter_amended :
    (∀ args : GqlProductsArgs, args.status = none →
        (graphqlProductWhere args).status = some ProductStatus.PUBLISHED) ∧
      (∀ (args : GqlProductsArgs) (s : ProductStatus), args.status = some s →
          (graphqlProductWhere args).status = some s) ∧
      (∀ q : RestProductQuery,
          (restProductWhere (parseProductQuery q)).status = q.status) := by
  refine ⟨?_, ?_, ?_⟩
  · intro args h
    simp [graphqlProductWhere, h]
  · intro args s h
    simp [graphqlProductWhere, h]
  · intro q
    simp [restProductWhere, parseProductQuery]

/-- C4 amended witness: the amended statement applied at concrete GraphQL
arguments (absent and DRAFT status) and a concrete REST query. -/
theorem status_filter_amended_witness :
    (graphqlProductWhere ⟨none, none, none, none, none⟩).status =
        some ProductStatus.PUBLISHED ∧
      (graphqlProductWhere
            ⟨some ProductStatus.DRAFT, none, none, none, none⟩).status =
        some ProductStatus.DRAFT ∧
      (restProductWhere
            (parseProductQuery
              ⟨some ProductStatus.ARCHIVED, none, none, none, none⟩)).status =
        some ProductStatus.ARCHIVED :=
  ⟨status_filter_amended.1 ⟨none, none, none, none, none⟩ rfl,
    status_filter_amended.2.1 ⟨some ProductStatus.DRAFT, none, none, none, none⟩
      ProductStatus.DRAFT rfl,
    status_filter_amended.2.2
      ⟨some ProductStatus.ARCHIVED, none, none, none, none⟩⟩

/-- C9: evaluating the builders at a request with no featured parameter. The
REST where clause nevertheless restricts to isFeatured false, because the zod
transform turns an absent featured into the boolean false and thereby makes
the undefined guard unreachable, while the GraphQL field correctly adds no
featured restriction; with the parameter supplied both restrict to its exact
boolean value. -/
theorem rest_featured_always_restricts :
    (restProductWhere (parseProductQuery ⟨none, none, none, none, none⟩)).isFeatured
        = some false ∧
      (graphqlProductWhere ⟨none, none, none, none, none⟩).isFeatured = none ∧
      (restProductWhere
            (parseProductQuery ⟨none, some "true", none, none, none⟩)).isFeatured
        = some true ∧
      (graphqlProductWhere ⟨none, none, none, some true, none⟩).isFeatured =
        some true := by
  decide

/-- Membership survives deduplication of the pending key queue. -/
theorem mem_dedupKeys {κ : Type} [DecidableEq κ] :
    ∀ (l : List κ) (a : κ), a ∈ dedupKeys l ↔ a ∈ l
  | [], a => by simp [dedupKeys]
  | k :: rest, a => by
    rw [dedupKeys]
    by_cases h : a = k
    · simp [h]
    · simp only [List.mem_cons, h, false_or]
      rw [mem_dedupKeys (rest.filter (fun x => decide (x ≠ k))) a]
      simp [List.mem_filter, h]
termination_by l => l.length
decreasing_by
  simp only [List.length_cons]
  exact Nat.lt_succ_of_le (List.length_filter_le _ _)

/-- The deduplicated pending key queue holds each key at most once. -/
theorem dedupKeys_nodup {κ : Type} [DecidableEq κ] :
    ∀ l : List κ, (dedupKeys l).Nodup
  | [] => by simp [dedupKeys]
  | k :: rest => by
    rw [dedupKeys]
    refine List.nodup_cons.mpr ⟨?_, dedupKeys_nodup (rest.filter _)⟩
    intro hk
    have := (mem_dedupKeys _ k).mp hk
    simp [List.mem_filter] at this
termination_by l => l.length
decreasing_by
  simp only [List.length_cons]
  exact Nat.lt_succ_of_le (List.length_filter_le _ _)

/-- C6: the batching primitive never dispatches for an empty key list, and
otherwise invokes the batch function exactly once with the deduplicated key
queue, resolving every positional slot from the shared cache so duplicate
keys receive the same result. -/
theorem loadDispatch_spec {κ α : Type} [DecidableEq κ]
    (batch : List κ → List α) (keys : List κ) :
    loadDispatch batch ([] : List κ) = ([], []) ∧
      (keys ≠ [] →
          (loadDispatch batch keys).2 = [dedupKeys keys] ∧
            (dedupKeys keys).Nodup ∧
            (loadDispatch batch keys).1 =
              keys.map (fun k =>
                List.lookup k
                  ((dedupKeys keys).zip (batch (dedupKeys keys))))) ∧
      (∀ (i j : Nat) (hi : i < keys.length) (hj : j < keys.length),
          keys.get ⟨i, hi⟩ = keys.get ⟨j, hj⟩ →
            ((loadDispatch batch keys).1)[i]? =
              ((loadDispatch batch keys).1)[j]?) := by
  refine ⟨rfl, ?_, ?_⟩
  · intro hne
    match keys, hne with
    | k :: rest, _ =>
      exact ⟨rfl, dedupKeys_nodup _, rfl⟩
  · intro i j hi hj heq
    match keys, hi, hj, heq with
    | k :: rest, hi, hj, heq =>
      simp only [loadDispatch]
      rw [List.getElem?_map, List.getElem?_map,
        List.getElem?_eq_getElem hi, List.getElem?_eq_getElem hj]
      simp only [List.get_eq_getElem] at heq
      rw [heq]

/-- C6 witness: on keys [1, 2, 1, 3] over the product loader batch, the
dispatched queue is the distinct [1, 2, 3] and the duplicate slots 0 and 2
resolve to the same cached result. -/
theorem loadDispatch_spec_witness :
    loadDispatch (createProductLoaderBatch exampleProductStore)
        ([] : List Nat) = ([], []) ∧
      (loadDispatch (createProductLoaderBatch exampleProductStore)
          [1, 2, 1, 3]).2 = [dedupKeys [1, 2, 1, 3]] ∧
      (dedupKeys ([1, 2, 1, 3] : List Nat)).Nodup ∧
      ((loadDispatch (createProductLoaderBatch exampleProductStore)
          [1, 2, 1, 3]).1)[0]? =
        ((loadDispatch (createProductLoaderBatch exampleProductStore)
            [1, 2, 1, 3]).1)[2]? :=
  ⟨(loadDispatch_spec (createProductLoaderBatch exampleProductStore)
      [1, 2, 1, 3]).1,
    ((loadDispatch_spec (createProductLoaderBatch exampleProductStore)
        [1, 2, 1, 3]).2.1 (by decide)).1,
    ((loadDispatch_spec (createProductLoaderBatch exampleProductStore)
        [1, 2, 1, 3]).2.1 (by decide)).2.1,
    (loadDispatch_spec (createProductLoaderBatch exampleProductStore)
        [1, 2, 1, 3]).2.2 0 2 (by decide) (by decide) (by decide)⟩

end Storefront
